import Mathlib

/- Verification of the competitor-matching core of the price-optimizer
repository.  Two source variants are modelled:

* `src/competitor_matcher.py` (the CLI variant): `search_amazon_real`,
  `get_product_details_from_api`, `get_embedding`, `find_best_competitor`.
* `src/backend/server.py` (the server variant): `get_product_details`,
  the HuggingFace embedding call (modelled as an environment response),
  `search_and_match`, and the `/api/find-competitor` route
  `find_competitor`.

External collaborators (the Rainforest search and product-detail API, the
HuggingFace embedding API, and `np.random.rand`) are modelled as explicit
environment inputs, and every collaborator invocation is recorded in a
call trace.  Python floats are modelled as real numbers; a raised
exception is modelled as `none`. -/

namespace PriceOpt

/-- One raw search result, as read from the Rainforest `search_results`
array (`asin`, `title`, `price.value`, `price.currency`, `link`,
`ratings_total`, `image`). -/
structure SearchItem where
  asin : String
  title : String
  priceValue : ℚ
  priceCurrency : String
  link : String
  ratingsTotal : ℕ
  image : String

/-- Outcome of the Rainforest search request: `failed` is the `None`
returned by the request helper on a transport/HTTP error, `noKey` a JSON
body without a `search_results` key (or a falsy body), `results` a body
with the key. -/
inductive SearchResp
  | failed
  | noKey
  | results (items : List SearchItem)

/-- Outcome of the Rainforest product-detail request for one ASIN:
`failed` is a transport/HTTP error (`None`), `noProduct` a JSON body
without a `product` key, `product` the extracted `title`,
`feature_bullets` and `description` fields. -/
inductive DetailResp
  | failed
  | noProduct
  | product (title : String) (bullets : List String) (description : String)

/-- One collaborator invocation, recorded in order.  `embedCall` is the
server variant's single HuggingFace batch call; `embedTextCall` is the
CLI variant's per-text `get_embedding` invocation. -/
inductive CallEv
  | searchCall (keyword : String)
  | detailCall (asin : String)
  | embedCall (batch : List String)
  | embedTextCall (text : String)
deriving DecidableEq

/-- One element of the JSON list returned by the embedding service:
either a flat vector, or a list of vectors (the service sometimes nests
one level deeper; the code takes row 0 after checking `ndim > 1`). -/
inductive Entry
  | flat (v : List ℝ)
  | nested (rows : List (List ℝ))

/-- The embedding service response as seen by `search_and_match`:
`fail` is the `None` produced on a network error or non-JSON body,
`errDict` a JSON object (error payload), `nonList` some other JSON
scalar, `vectors` a JSON list. -/
inductive EmbedResp
  | fail
  | errDict
  | nonList (s : String)
  | vectors (entries : List Entry)

/-- A candidate dict in the server variant (`server.py`): the keys set at
creation plus `similarity` and `features`, which are absent (`none`)
until the scoring or fallback stage writes them. -/
structure Candidate where
  id : String
  title : String
  price : ℚ
  currency : String
  link : String
  sales : ℕ
  descText : String
  similarity : Option ℝ := none
  features : Option String := none

instance : Inhabited Candidate :=
  ⟨{ id := "", title := "", price := 0, currency := "", link := "",
     sales := 0, descText := "" }⟩

/-- A candidate dict in the CLI variant (`competitor_matcher.py`): the
keys set by `search_amazon_real` plus `similarity_score` and
`detailed_desc_preview`, absent until the scoring loop writes them. -/
structure MCand where
  id : String
  title : String
  price : ℚ
  currency : String
  link : String
  salesEstimation : ℕ
  image : String
  basicText : String
  similarityScore : Option ℝ := none
  detailedDescPreview : Option String := none

instance : Inhabited MCand :=
  ⟨{ id := "", title := "", price := 0, currency := "", link := "",
     salesEstimation := 0, image := "", basicText := "" }⟩

/-- Python's `" ".join(bullets)`. -/
def joinSpace : List String → String
  | [] => ""
  | [s] => s
  | s :: rest => s ++ " " ++ joinSpace rest

/-- Text assembly of the server variant (`get_product_details` body):
`f"{title}. " + " ".join(bullets) + str(description)` — the description
is always appended. -/
def assembleServer (title : String) (bullets : List String)
    (description : String) : String :=
  title ++ ". " ++ joinSpace bullets ++ description

/-- Text assembly of the CLI variant (`get_product_details_from_api`
body): `full = f"{title}. " + " ".join(bullets)`, and only when
`bullets` is empty is `description` appended. -/
def assembleMatcher (title : String) (bullets : List String)
    (description : String) : String :=
  let full := title ++ ". " ++ joinSpace bullets
  if bullets = [] then full ++ description else full

/-- Server variant `get_product_details`: empty string when the detail
request failed or the body has no `product` key, otherwise the assembled
text. -/
def get_product_details : DetailResp → String
  | .failed => ""
  | .noProduct => ""
  | .product t bs d => assembleServer t bs d

/-- CLI variant `get_product_details_from_api`: empty string when the
detail request failed or the body has no `product` key, otherwise the
assembled text. -/
def get_product_details_from_api : DetailResp → String
  | .failed => ""
  | .noProduct => ""
  | .product t bs d => assembleMatcher t bs d

/-- Candidate creation in `search_and_match` (server variant): the dict
literal appended for each raw search item, with `desc_text` initially
empty. -/
def mkCandidate (it : SearchItem) : Candidate :=
  { id := it.asin, title := it.title, price := it.priceValue,
    currency := it.priceCurrency, link := it.link,
    sales := it.ratingsTotal, descText := "" }

/-- Candidate creation in `search_amazon_real` (CLI variant): the dict
literal appended for each raw search item (`basic_text` is the title). -/
def mkMCand (it : SearchItem) : MCand :=
  { id := it.asin, title := it.title, price := it.priceValue,
    currency := it.priceCurrency, link := it.link,
    salesEstimation := it.ratingsTotal, image := it.image,
    basicText := it.title }

/-- The candidate list built by `search_and_match` from the search
response: nothing on failure or a missing key, else the dicts for the
first 1 raw results (`data['search_results'][:1]`). -/
def searchCandidates : SearchResp → List Candidate
  | .failed => []
  | .noKey => []
  | .results items => (items.take 1).map mkCandidate

/-- CLI variant `search_amazon_real`: the candidate dicts for the first
`limit` raw results (`data['search_results'][:limit]`). -/
def search_amazon_real (resp : SearchResp) (limit : ℕ) : List MCand :=
  match resp with
  | .failed => []
  | .noKey => []
  | .results items => (items.take limit).map mkMCand

/-- The enrichment loop of `search_and_match`: for each candidate it
requests the product detail (recording the call), and when the returned
text is non-empty it stores it in `desc_text`, appends the first 800
characters to the batch, and keeps the candidate in
`valid_candidates`.  Returns `(texts appended to all_texts,
valid_candidates, call log)`. -/
def enrichLoop (detail : String → DetailResp) :
    List Candidate → List String × List Candidate × List CallEv
  | [] => ([], [], [])
  | item :: rest =>
    let dt := get_product_details (detail item.id)
    let r := enrichLoop detail rest
    if dt = "" then (r.1, r.2.1, CallEv.detailCall item.id :: r.2.2)
    else (dt.take 800 :: r.1, { item with descText := dt } :: r.2.1,
          CallEv.detailCall item.id :: r.2.2)

/-- The in-place mutation of the first surviving candidate on the
degraded path of `search_and_match`: `similarity = 0.0` and
`features = "AI Service Error - Check Logs"`. -/
def degrade (c : Candidate) : Candidate :=
  { c with similarity := some 0,
           features := some "AI Service Error - Check Logs" }

/-- The condition `not embeddings or isinstance(embeddings, dict)` that
sends `search_and_match` down the degraded fallback path: a `None`
response, a JSON object, an empty list, or a falsy scalar. -/
def embedFailed : EmbedResp → Bool
  | .fail => true
  | .errDict => true
  | .nonList s => s = ""
  | .vectors entries => entries.isEmpty

/-- Whether a trace event is an invocation of the embedding provider
(either variant). -/
def isEmbed : CallEv → Bool
  | .embedCall _ => true
  | .embedTextCall _ => true
  | _ => false

/-- Shaping of one embedding-response entry by `np.array` plus the
`ndim > 1` squeeze: a flat entry is used as is; a nested entry must be
rectangular (otherwise `np.array` raises, modelled `none`) and its row 0
is used. -/
def toVec : Entry → Option (List ℝ)
  | .flat v => some v
  | .nested rows =>
    if rows.all (fun r => r.length = (rows.headD []).length) then rows.head?
    else none

/-- The collaborator environment of one server-variant request: the
search response, the detail response per ASIN, and the embedding
response per batch. -/
structure Env where
  searchResp : SearchResp
  detailResp : String → DetailResp
  embedResp : List String → EmbedResp

/-- The collaborator environment of one CLI-variant run: search and
detail as above, the optional sentence-transformer model, and the
successive `np.random.rand(384)` draws (indexed by embedding-call
number). -/
structure MatcherEnv where
  searchResp : SearchResp
  detailResp : String → DetailResp
  model : Option (String → List ℝ)
  randVecs : ℕ → List ℝ

/-- Result of the `/api/find-competitor` route: a 500 for missing
environment variables, or the JSON success payload with `best_match`
and `all_candidates`. -/
inductive RouteResult
  | missingEnv
  | ok (best : Option Candidate) (allCands : List Candidate)

noncomputable section

/-- Dot product of two float vectors (as computed inside sklearn's
`cosine_similarity`). -/
def dot (a b : List ℝ) : ℝ := (List.zipWith (· * ·) a b).sum

/-- Euclidean norm of a float vector. -/
def norm2 (a : List ℝ) : ℝ := Real.sqrt ((a.map fun x => x * x).sum)

/-- sklearn's `cosine_similarity` on two single-row inputs: it raises
(modelled `none`) on zero features or incompatible dimensions, and
normalizes each row by its norm, substituting 1 for a zero norm (so a
zero vector gets similarity 0, not NaN). -/
def cosineSim (a b : List ℝ) : Option ℝ :=
  if a.length = 0 ∨ b.length = 0 ∨ a.length ≠ b.length then none
  else
    let na := if norm2 a = 0 then 1 else norm2 a
    let nb := if norm2 b = 0 then 1 else norm2 b
    some (dot a b / na / nb)

/-- CLI variant `get_embedding`: encodes with the model when it is
loaded and the text is truthy (non-empty), otherwise returns the fresh
`np.random.rand(384)` draw passed in as `rand`. -/
def get_embedding (model : Option (String → List ℝ)) (rand : List ℝ)
    (text : String) : List ℝ :=
  match model with
  | some m => if text = "" then rand else m text
  | none => rand

/-- The two dict writes performed on a candidate inside the server
scoring loop: `item['similarity'] = score` and
`item['features'] = item['desc_text'][:100] + "..."`. -/
def scoreUpd (item : Candidate) (score : ℝ) : Candidate :=
  { item with similarity := some score,
              features := some (item.descText.take 100 ++ "...") }

/-- The two dict writes performed on a candidate inside the CLI scoring
loop: `item['similarity_score'] = score` and
`item['detailed_desc_preview'] = detailed_text[:100] + "..."`. -/
def fbcUpd (item : MCand) (dt : String) (score : ℝ) : MCand :=
  { item with similarityScore := some score,
              detailedDescPreview := some (dt.take 100 ++ "...") }

/-- The scoring loop inside `search_and_match`'s `try` block: for the
i-th surviving candidate it shapes `embeddings[i+1]` (here the head of
the remaining entries), computes the cosine similarity against the
reference vector, writes `similarity` and `features` into the candidate,
and updates `(best_match, highest_score)` on a strict `>` comparison
(`highest_score` starts at -1).  `none` models a raised exception (index
out of range, unshapeable entry, or a `cosine_similarity` error), which
the surrounding `except` turns into `(None, [])`. -/
def scoreLoop (myVec : List ℝ) :
    List Candidate → List Entry → Option Candidate → ℝ →
    Option (List Candidate × Option Candidate)
  | [], _, best, _ => some ([], best)
  | _ :: _, [], _, _ => none
  | item :: rest, e :: es, best, high =>
    match toVec e with
    | none => none
    | some v =>
      match cosineSim myVec v with
      | none => none
      | some score =>
        let item' := scoreUpd item score
        let next := if score > high then scoreLoop myVec rest es (some item') score
                    else scoreLoop myVec rest es best high
        match next with
        | none => none
        | some r => some (item' :: r.1, r.2)

/-- Server variant `search_and_match`, returning the `(best_match,
valid_candidates)` pair together with the trace of collaborator calls.
Stages exactly as in the source: the search request; the dict slice of
the first raw result; the early `(None, [])` returns for no candidate
and no survivor; the single batched embedding call; the degraded
fallback that mutates the first survivor in place; the non-list check;
and the `try` block whose exceptions become `(None, [])`. -/
def search_and_match (env : Env) (my_desc keyword : String) :
    (Option Candidate × List Candidate) × List CallEv :=
  let log0 : List CallEv := [CallEv.searchCall keyword]
  match searchCandidates env.searchResp with
  | [] => ((none, []), log0)
  | c :: cs =>
    let r := enrichLoop env.detailResp (c :: cs)
    let all_texts := my_desc :: r.1
    let log1 := log0 ++ r.2.2
    match r.2.1 with
    | [] => ((none, []), log1)
    | c0 :: vrest =>
      let log2 := log1 ++ [CallEv.embedCall all_texts]
      match env.embedResp all_texts with
      | .fail => ((some (degrade c0), degrade c0 :: vrest), log2)
      | .errDict => ((some (degrade c0), degrade c0 :: vrest), log2)
      | .nonList s =>
        if s = "" then ((some (degrade c0), degrade c0 :: vrest), log2)
        else ((none, []), log2)
      | .vectors [] => ((some (degrade c0), degrade c0 :: vrest), log2)
      | .vectors (e0 :: es) =>
        match toVec e0 with
        | none => ((none, []), log2)
        | some myVec =>
          match scoreLoop myVec (c0 :: vrest) es none (-1) with
          | none => ((none, []), log2)
          | some r2 => ((r2.2, r2.1), log2)

/-- The `/api/find-competitor` route: it reads `keyword` and
`description` from the body with `''` defaults, returns a 500 when the
`RAINFOREST_API_KEY` or `HF_TOKEN` environment variable is missing, and
otherwise runs `search_and_match` and wraps its pair in the success
payload.  There is no keyword validation. -/
def find_competitor (hasKeys : Bool) (env : Env)
    (bodyKeyword bodyDescription : Option String) :
    RouteResult × List CallEv :=
  let keyword := bodyKeyword.getD ""
  let description := bodyDescription.getD ""
  if hasKeys then
    let r := search_and_match env description keyword
    (RouteResult.ok r.1.1 r.1.2, r.2)
  else (RouteResult.missingEnv, [])

/-- The similarity score stored at position `j` of a scored candidate
list (0 when absent, for out-of-range positions and unscored dicts). -/
def simAt (l : List Candidate) (j : ℕ) : ℝ :=
  ((l.getD j default).similarity).getD 0

/-- The per-candidate loop of the CLI variant's `find_best_competitor`:
fetch the detail text (falling back to the title when it is empty),
embed it with `get_embedding` (one call per candidate, consuming random
draw number `n` when on the random path), compute the cosine similarity
against the reference vector, write `similarity_score` and
`detailed_desc_preview` into the candidate, and update `(best_match,
highest_score)` on a strict `>` comparison.  Returns the scored
candidates, the final best, the next draw index, and the call log;
`none` models a propagated exception. -/
def fbcLoop (env : MatcherEnv) (myVec : List ℝ) :
    List MCand → ℕ → Option MCand → ℝ →
    Option (List MCand × Option MCand × ℕ × List CallEv)
  | [], n, best, _ => some ([], best, n, [])
  | item :: rest, n, best, high =>
    let dt0 := get_product_details_from_api (env.detailResp item.id)
    let dt := if dt0 = "" then item.title else dt0
    let itemVec := get_embedding env.model (env.randVecs n) dt
    match cosineSim myVec itemVec with
    | none => none
    | some score =>
      let item' := fbcUpd item dt score
      let next := if score > high then fbcLoop env myVec rest (n + 1) (some item') score
                  else fbcLoop env myVec rest (n + 1) best high
      match next with
      | none => none
      | some r =>
        some (item' :: r.1, r.2.1, r.2.2.1,
              CallEv.detailCall item.id :: CallEv.embedTextCall dt :: r.2.2.2)

/-- CLI variant `find_best_competitor`: search with `limit=1`, return
`(None, [])` on an empty candidate list, otherwise embed the reference
description (`get_embedding` call number 0) and run the per-candidate
loop starting from `best_match = None`, `highest_score = -1`.  The
result pair comes with the collaborator-call trace; `none` models a
propagated exception. -/
def find_best_competitor (env : MatcherEnv) (my_desc keyword : String) :
    Option ((Option MCand × List MCand) × List CallEv) :=
  match search_amazon_real env.searchResp 1 with
  | [] => some ((none, []), [CallEv.searchCall keyword])
  | c :: cs =>
    let myVec := get_embedding env.model (env.randVecs 0) my_desc
    match fbcLoop env myVec (c :: cs) 1 none (-1) with
    | none => none
    | some r =>
      some ((r.2.1, r.1),
            CallEv.searchCall keyword :: CallEv.embedTextCall my_desc :: r.2.2.2)

/-- A fixed raw search item used by the concrete runs below. -/
def itemA : SearchItem :=
  { asin := "A1", title := "T", priceValue := 10, priceCurrency := "EUR",
    link := "L", ratingsTotal := 5, image := "I" }

/-- A detail collaborator that answers every ASIN with the same product
(title `T`, one bullet `b`, description `D`). -/
def detailOkay : String → DetailResp :=
  fun _ => DetailResp.product "T" ["b"] "D"

/-- A server environment whose search request fails with a transport
error. -/
def envSearchFail : Env :=
  { searchResp := .failed, detailResp := detailOkay,
    embedResp := fun _ => .fail }

/-- A server environment whose search succeeds with an empty
`search_results` array. -/
def envSearchEmpty : Env :=
  { searchResp := .results [], detailResp := detailOkay,
    embedResp := fun _ => .fail }

/-- A server environment with one search result, a working detail
collaborator, and a failing embedding service. -/
def envEmbedFail : Env :=
  { searchResp := .results [itemA], detailResp := detailOkay,
    embedResp := fun _ => .fail }

/-- A server environment whose embedding service returns the reference
vector `[1]` and the candidate vector `[-1]` (cosine similarity -1). -/
def envCosNeg : Env :=
  { searchResp := .results [itemA], detailResp := detailOkay,
    embedResp := fun _ => .vectors [.flat [1], .flat [-1]] }

/-- A server environment whose embedding service returns the reference
vector `[1]` and the candidate vector `[1]` (cosine similarity 1). -/
def envCosPos : Env :=
  { searchResp := .results [itemA], detailResp := detailOkay,
    embedResp := fun _ => .vectors [.flat [1], .flat [1]] }

/-- A server environment whose embedding service returns a non-empty
list with too few vectors: one entry for one surviving candidate (the
list needs `1 + 1` entries). -/
def envShort : Env :=
  { searchResp := .results [itemA], detailResp := detailOkay,
    embedResp := fun _ => .vectors [.flat [1]] }

/-- A server environment whose embedding service returns a list of the
right length whose second entry is a ragged nested array (unshapeable:
`np.array` raises on it). -/
def envRagged : Env :=
  { searchResp := .results [itemA], detailResp := detailOkay,
    embedResp := fun _ => .vectors [.flat [1], .nested [[1], [1, 2]]] }

/-- A CLI environment with one search result, a working detail
collaborator, a loaded model that encodes every text to `[1]`, and
constant random draws. -/
def cliEnv : MatcherEnv :=
  { searchResp := .results [itemA], detailResp := detailOkay,
    model := some fun _ => [1], randVecs := fun _ => [1] }

/-- The full output of the CLI run on `cliEnv` with description `"x"`
and keyword `"kw"`: one candidate scored 1, and a trace with two
embedding-provider invocations (the reference text and the candidate
text). -/
def cliRunResult : (Option MCand × List MCand) × List CallEv :=
  ((some (fbcUpd (mkMCand itemA) "T. b" 1),
    [fbcUpd (mkMCand itemA) "T. b" 1]),
   [CallEv.searchCall "kw", CallEv.embedTextCall "x",
    CallEv.detailCall "A1", CallEv.embedTextCall "T. b"])

end

@[simp]
theorem simAt_cons_zero (a : Candidate) (l : List Candidate) :
    simAt (a :: l) 0 = a.similarity.getD 0 := rfl

@[simp]
theorem simAt_cons_succ (a : Candidate) (l : List Candidate) (k : ℕ) :
    simAt (a :: l) (k + 1) = simAt l k := rfl

@[simp]
theorem scoreUpd_similarity (c : Candidate) (s : ℝ) :
    (scoreUpd c s).similarity = some s := rfl

@[simp]
theorem scoreUpd_id (c : Candidate) (s : ℝ) :
    (scoreUpd c s).id = c.id := rfl

theorem norm2_one : norm2 [(1 : ℝ)] = 1 := by
  simp [norm2]

theorem norm2_negone : norm2 [(-1 : ℝ)] = 1 := by
  simp [norm2]

theorem cos_one_one : cosineSim [(1 : ℝ)] [1] = some 1 := by
  simp [cosineSim, dot, norm2_one]

theorem cos_one_negone : cosineSim [(1 : ℝ)] [-1] = some (-1) := by
  simp [cosineSim, dot, norm2_one, norm2_negone]

theorem enrichLoop_valid_length (detail : String → DetailResp) :
    ∀ l : List Candidate, (enrichLoop detail l).2.1.length ≤ l.length := by
  intro l
  induction l with
  | nil => simp [enrichLoop]
  | cons a l ih =>
    simp only [enrichLoop]
    split
    · exact Nat.le_succ_of_le ih
    · simpa using Nat.succ_le_succ ih

theorem enrichLoop_log_detail (detail : String → DetailResp) :
    ∀ l : List Candidate, ∀ ev ∈ (enrichLoop detail l).2.2,
      ∃ a, ev = CallEv.detailCall a := by
  intro l
  induction l with
  | nil => simp [enrichLoop]
  | cons a l ih =>
    intro ev hev
    by_cases hdt : get_product_details (detail a.id) = ""
    · simp only [enrichLoop, if_pos hdt, List.mem_cons] at hev
      rcases hev with hev | hev
      · exact ⟨a.id, hev⟩
      · exact ih ev hev
    · simp only [enrichLoop, if_neg hdt, List.mem_cons] at hev
      rcases hev with hev | hev
      · exact ⟨a.id, hev⟩
      · exact ih ev hev

theorem scoreLoop_short (myVec : List ℝ) :
    ∀ (cands : List Candidate) (entries : List Entry)
      (best0 : Option Candidate) (high0 : ℝ),
      entries.length < cands.length →
      scoreLoop myVec cands entries best0 high0 = none := by
  intro cands
  induction cands with
  | nil =>
    intro entries best0 high0 hlt
    simp at hlt
  | cons item rest ih =>
    intro entries best0 high0 hlt
    match entries with
    | [] => simp [scoreLoop]
    | e :: es =>
      have hlt' : es.length < rest.length := by
        simpa using Nat.lt_of_succ_lt_succ (by simpa using hlt)
      cases hv : toVec e with
      | none => simp [scoreLoop, hv]
      | some v =>
        cases hc : cosineSim myVec v with
        | none => simp [scoreLoop, hv, hc]
        | some s =>
          simp [scoreLoop, hv, hc,
                ih es (some (scoreUpd item s)) s hlt',
                ih es best0 high0 hlt']

theorem scoreLoop_badEntry (myVec : List ℝ) :
    ∀ (cands : List Candidate) (entries : List Entry)
      (best0 : Option Candidate) (high0 : ℝ),
      (∃ e ∈ entries.take cands.length, toVec e = none) →
      scoreLoop myVec cands entries best0 high0 = none := by
  intro cands
  induction cands with
  | nil =>
    intro entries best0 high0 hex
    simp at hex
  | cons item rest ih =>
    intro entries best0 high0 hex
    match entries with
    | [] => simp [scoreLoop]
    | e :: es =>
      obtain ⟨x, hxmem, hxbad⟩ := hex
      have hxmem' : x = e ∨ x ∈ es.take rest.length := by
        simpa [List.length_cons, List.take_succ_cons] using hxmem
      rcases hxmem' with rfl | hx
      · simp [scoreLoop, hxbad]
      · cases hv : toVec e with
        | none => simp [scoreLoop, hv]
        | some v =>
          cases hc : cosineSim myVec v with
          | none => simp [scoreLoop, hv, hc]
          | some s =>
            simp [scoreLoop, hv, hc,
                  ih es (some (scoreUpd item s)) s ⟨x, hx, hxbad⟩,
                  ih es best0 high0 ⟨x, hx, hxbad⟩]

theorem scoreLoop_spec (myVec : List ℝ) :
    ∀ (cands : List Candidate) (entries : List Entry)
      (best0 : Option Candidate) (high0 : ℝ)
      (updated : List Candidate) (best : Option Candidate),
      scoreLoop myVec cands entries best0 high0 = some (updated, best) →
      updated.length = cands.length ∧
      ((∀ j, j < updated.length → simAt updated j ≤ high0) → best = best0) ∧
      (∀ j, j < updated.length → high0 < simAt updated j →
        ∃ i, i < updated.length ∧ best = some (updated.getD i default) ∧
          high0 < simAt updated i ∧
          (∀ k, k < updated.length → simAt updated k ≤ simAt updated i) ∧
          (∀ k, k < i → simAt updated k < simAt updated i)) := by
  intro cands
  induction cands with
  | nil =>
    intro entries best0 high0 updated best h
    simp only [scoreLoop, Option.some.injEq, Prod.mk.injEq] at h
    obtain ⟨h1, h2⟩ := h
    subst h1
    subst h2
    exact ⟨rfl, fun _ => rfl, fun j hj => absurd hj (by simp)⟩
  | cons item rest ih =>
    intro entries best0 high0 updated best h
    match entries with
    | [] => simp [scoreLoop] at h
    | e :: es =>
      simp only [scoreLoop] at h
      cases hv : toVec e with
      | none => simp [hv] at h
      | some v =>
        simp only [hv] at h
        cases hc : cosineSim myVec v with
        | none => simp [hc] at h
        | some s =>
          simp only [hc] at h
          by_cases hgt : s > high0
          · rw [if_pos hgt] at h
            cases hnext : scoreLoop myVec rest es (some (scoreUpd item s)) s with
            | none => rw [hnext] at h; simp at h
            | some r =>
              rw [hnext] at h
              simp only [Option.some.injEq, Prod.mk.injEq] at h
              obtain ⟨h1, h2⟩ := h
              subst h1
              subst h2
              obtain ⟨ihlen, ihall, ihex⟩ :=
                ih es (some (scoreUpd item s)) s r.1 r.2 hnext
              refine ⟨by simp [ihlen], ?_, ?_⟩
              · intro hall0
                exfalso
                have h0 := hall0 0 (by simp)
                simp at h0
                exact absurd hgt (not_lt.mpr h0)
              · intro j hj hjgt
                by_cases hc2 : ∃ j', j' < r.1.length ∧ s < simAt r.1 j'
                · obtain ⟨j', hj'len, hj'⟩ := hc2
                  obtain ⟨i', hi'len, hbest, hi'gt, hmax, hstrict⟩ :=
                    ihex j' hj'len hj'
                  refine ⟨i' + 1, by simpa using Nat.succ_lt_succ hi'len,
                          ?_, ?_, ?_, ?_⟩
                  · simpa [List.getD_cons_succ] using hbest
                  · simpa using lt_trans hgt hi'gt
                  · intro k hk
                    match k with
                    | 0 => simpa using le_of_lt hi'gt
                    | k + 1 =>
                      simpa using hmax k (by simpa using Nat.lt_of_succ_lt_succ hk)
                  · intro k hk
                    match k with
                    | 0 => simpa using hi'gt
                    | k + 1 =>
                      simpa using hstrict k (Nat.lt_of_succ_lt_succ hk)
                · push_neg at hc2
                  have hb := ihall hc2
                  refine ⟨0, by simp, by simpa using hb, by simpa using hgt,
                          ?_, ?_⟩
                  · intro k hk
                    match k with
                    | 0 => exact le_refl _
                    | k + 1 =>
                      simpa using hc2 k (by simpa using Nat.lt_of_succ_lt_succ hk)
                  · intro k hk
                    exact absurd hk (Nat.not_lt_zero k)
          · rw [if_neg hgt] at h
            have hle : s ≤ high0 := not_lt.mp hgt
            cases hnext : scoreLoop myVec rest es best0 high0 with
            | none => rw [hnext] at h; simp at h
            | some r =>
              rw [hnext] at h
              simp only [Option.some.injEq, Prod.mk.injEq] at h
              obtain ⟨h1, h2⟩ := h
              subst h1
              subst h2
              obtain ⟨ihlen, ihall, ihex⟩ := ih es best0 high0 r.1 r.2 hnext
              refine ⟨by simp [ihlen], ?_, ?_⟩
              · intro hall0
                apply ihall
                intro j' hj'
                have := hall0 (j' + 1) (by simpa using Nat.succ_lt_succ hj')
                simpa using this
              · intro j hj hjgt
                match j with
                | 0 =>
                  simp at hjgt
                  exact absurd hjgt (not_lt.mpr hle)
                | j + 1 =>
                  have hjgt' : high0 < simAt r.1 j := by simpa using hjgt
                  obtain ⟨i', hi'len, hbest, hi'gt, hmax, hstrict⟩ :=
                    ihex j (by simpa using Nat.lt_of_succ_lt_succ hj) hjgt'
                  refine ⟨i' + 1, by simpa using Nat.succ_lt_succ hi'len,
                          ?_, ?_, ?_, ?_⟩
                  · simpa [List.getD_cons_succ] using hbest
                  · simpa using hi'gt
                  · intro k hk
                    match k with
                    | 0 => simpa using le_trans hle (le_of_lt hi'gt)
                    | k + 1 =>
                      simpa using hmax k (by simpa using Nat.lt_of_succ_lt_succ hk)
                  · intro k hk
                    match k with
                    | 0 => simpa using lt_of_le_of_lt hle hi'gt
                    | k + 1 =>
                      simpa using hstrict k (Nat.lt_of_succ_lt_succ hk)

theorem trace_head (env : Env) (my_desc keyword : String) :
    (search_and_match env my_desc keyword).2.head? =
      some (CallEv.searchCall keyword) := by
  unfold search_and_match
  dsimp only
  split
  · rfl
  · split
    · rfl
    · split
      · rfl
      · rfl
      · split
        · rfl
        · rfl
      · rfl
      · split
        · rfl
        · split
          · rfl
          · rfl

/-- C1: when the search returned at least one raw result, at least one
candidate survived detail enrichment, and the embedding response is a
failure (a `None`, an error object, or an empty list), `search_and_match`
returns the first surviving candidate — mutated in place — as the best
match, with `similarity = 0` and the degradation marker
`"AI Service Error - Check Logs"` written into `features`, and returns
all surviving candidates as the candidate list. -/
theorem C1_degraded_fallback (env : Env) (my_desc keyword : String)
    (it : SearchItem) (its : List SearchItem)
    (texts : List String) (c0 : Candidate) (vrest : List Candidate)
    (dlog : List CallEv)
    (hsearch : env.searchResp = .results (it :: its))
    (henrich : enrichLoop env.detailResp (searchCandidates env.searchResp) =
      (texts, c0 :: vrest, dlog))
    (hembed : embedFailed (env.embedResp (my_desc :: texts)) = true) :
    (search_and_match env my_desc keyword).1 =
      (some (degrade c0), degrade c0 :: vrest) ∧
    (degrade c0).similarity = some 0 ∧
    (degrade c0).features = some "AI Service Error - Check Logs" := by
  refine ⟨?_, rfl, rfl⟩
  have hcand : searchCandidates env.searchResp = [mkCandidate it] := by
    rw [hsearch]
    simp [searchCandidates]
  rw [hcand] at henrich
  cases hemb : env.embedResp (my_desc :: texts) with
  | fail => simp [search_and_match, hcand, henrich, hemb]
  | errDict => simp [search_and_match, hcand, henrich, hemb]
  | nonList s =>
    rw [hemb] at hembed
    simp [embedFailed] at hembed
    subst hembed
    simp [search_and_match, hcand, henrich, hemb]
  | vectors entries =>
    rw [hemb] at hembed
    simp [embedFailed] at hembed
    subst hembed
    simp [search_and_match, hcand, henrich, hemb]

/-- C1 witness: the degraded-fallback behavior evaluated on a concrete
run: one search result, a surviving enriched candidate, and a failing
embedding service. -/
theorem C1_degraded_fallback_w :
    (search_and_match envEmbedFail "d" "k").1 =
      (some (degrade { mkCandidate itemA with descText := "T. bD" }),
       [degrade { mkCandidate itemA with descText := "T. bD" }]) ∧
    (degrade { mkCandidate itemA with descText := "T. bD" }).similarity =
      some 0 ∧
    (degrade { mkCandidate itemA with descText := "T. bD" }).features =
      some "AI Service Error - Check Logs" :=
  C1_degraded_fallback envEmbedFail "d" "k" itemA [] [("T. bD").take 800]
    { mkCandidate itemA with descText := "T. bD" } [] [CallEv.detailCall "A1"]
    rfl (by simp [envEmbedFail, searchCandidates, itemA, detailOkay,
      enrichLoop, get_product_details, assembleServer, joinSpace,
      mkCandidate]) rfl

/-- C2 counterexample input: a failed search request and a successful
search with an empty result array produce literally identical outputs —
the value `(None, [])` with the same call trace — so the two outcomes
are collapsed and no distinct search-failure error kind is surfaced. -/
theorem C2_counterexample :
    search_and_match envSearchFail "d" "k" =
      search_and_match envSearchEmpty "d" "k" ∧
    (search_and_match envSearchFail "d" "k").1 = (none, []) := by
  exact ⟨rfl, rfl⟩

/-- C2 (amended): a search-collaborator transport failure is absorbed:
`_make_rainforest_request` returns `None`, the candidate list stays
empty, and `search_and_match` returns `(None, [])` — exactly the value
of the successful empty-result outcome, with no distinct error kind.
The two outcomes are collapsed into the same returned value. -/
theorem C2_search_failure_collapsed (env env2 : Env)
    (my_desc keyword : String)
    (h : env.searchResp = .failed)
    (h2 : env2.searchResp = .results []) :
    search_and_match env my_desc keyword =
      ((none, []), [CallEv.searchCall keyword]) ∧
    search_and_match env my_desc keyword =
      search_and_match env2 my_desc keyword := by
  have e1 : search_and_match env my_desc keyword =
      ((none, []), [CallEv.searchCall keyword]) := by
    simp [search_and_match, searchCandidates, h]
  have e2 : search_and_match env2 my_desc keyword =
      ((none, []), [CallEv.searchCall keyword]) := by
    simp [search_and_match, searchCandidates, h2]
  exact ⟨e1, e1.trans e2.symm⟩

/-- C2 witness: the amended statement evaluated on the concrete failing
and empty environments. -/
theorem C2_search_failure_collapsed_w :
    search_and_match envSearchFail "d" "k" =
      ((none, []), [CallEv.searchCall "k"]) ∧
    search_and_match envSearchFail "d" "k" =
      search_and_match envSearchEmpty "d" "k" :=
  C2_search_failure_collapsed envSearchFail envSearchEmpty "d" "k" rfl rfl

/-- C7 counterexample input: a request with an empty keyword is not
rejected — the very first collaborator call is the search with the
empty keyword, and the route returns an ordinary success payload, not
an `InvalidInput` error (no such error kind exists in the code). -/
theorem C7_counterexample :
    (find_competitor true envSearchFail (some "") (some "d")).2.head? =
      some (CallEv.searchCall "") ∧
    (find_competitor true envSearchFail (some "") (some "d")).1 =
      RouteResult.ok none [] := by
  exact ⟨rfl, rfl⟩

/-- C7 (amended): an empty keyword is never rejected: for every
environment and body, the route with both API keys present forwards the
empty keyword to `search_and_match`, whose first collaborator call is
the search with that empty keyword, and the route returns an ordinary
success payload (there is no `InvalidInput` error kind). -/
theorem C7_no_keyword_validation (env : Env)
    (bodyDescription : Option String) :
    (find_competitor true env (some "") bodyDescription).2.head? =
      some (CallEv.searchCall "") ∧
    ∃ b a, (find_competitor true env (some "") bodyDescription).1 =
      RouteResult.ok b a := by
  unfold find_competitor
  exact ⟨trace_head env _ "", _, _, rfl⟩

/-- C3 counterexample input: a request whose single candidate scores
exactly -1 (reference vector `[1]`, candidate vector `[-1]`).  The
scored candidate list is non-empty and its first element attains the
maximum score, yet the selected best match is `none`, because the
strict `>` comparison against the initial sentinel `highest_score = -1`
never fires. -/
theorem C3_counterexample :
    (search_and_match envCosNeg "d" "k").1.1 = none ∧
    (search_and_match envCosNeg "d" "k").1.2.length = 1 ∧
    simAt (search_and_match envCosNeg "d" "k").1.2 0 = -1 := by
  have hrun : (search_and_match envCosNeg "d" "k").1 =
      (none, [scoreUpd { mkCandidate itemA with descText := "T. bD" } (-1)]) := by
    simp [search_and_match, envCosNeg, searchCandidates, itemA,
      detailOkay, mkCandidate, enrichLoop, get_product_details,
      assembleServer, joinSpace, scoreLoop, toVec, cos_one_negone, scoreUpd]
  rw [hrun]
  refine ⟨rfl, rfl, ?_⟩
  simp [scoreUpd]

/-- C3 (amended): given the initial accumulator `best_match = None`,
`highest_score = -1`, a successful run of the scoring loop selects, when
some candidate's score exceeds -1, the first candidate in input order
whose score attains the maximum (strict `>`, so earlier candidates win
exact ties); when every score equals -1, and when the candidate list is
empty, the best match is `none`. -/
theorem C3_first_argmax (myVec : List ℝ) (cands : List Candidate)
    (entries : List Entry) (updated : List Candidate)
    (best : Option Candidate)
    (h : scoreLoop myVec cands entries none (-1) = some (updated, best)) :
    (cands = [] → best = none) ∧
    ((∀ j, j < updated.length → simAt updated j ≤ -1) → best = none) ∧
    (∀ j, j < updated.length → -1 < simAt updated j →
      ∃ i, i < updated.length ∧ best = some (updated.getD i default) ∧
        (∀ k, k < updated.length → simAt updated k ≤ simAt updated i) ∧
        (∀ k, k < i → simAt updated k < simAt updated i)) := by
  obtain ⟨hlen, hall, hex⟩ :=
    scoreLoop_spec myVec cands entries none (-1) updated best h
  refine ⟨?_, hall, ?_⟩
  · intro hc
    subst hc
    exact hall (fun j hj => absurd hj (by simp [hlen]))
  · intro j hj hjgt
    obtain ⟨i, hi, hb, _, hmax, hstrict⟩ := hex j hj hjgt
    exact ⟨i, hi, hb, hmax, hstrict⟩

/-- C3 witness: the amended statement evaluated on a one-candidate run
scoring 1 — the loop selects that candidate as the first maximum. -/
theorem C3_first_argmax_w :
    ∃ updated best,
      scoreLoop [(1 : ℝ)] [mkCandidate itemA] [Entry.flat [1]] none (-1) =
        some (updated, best) ∧
      ∃ i, i < updated.length ∧ best = some (updated.getD i default) ∧
        (∀ k, k < updated.length → simAt updated k ≤ simAt updated i) ∧
        (∀ k, k < i → simAt updated k < simAt updated i) := by
  have h0 : scoreLoop [(1 : ℝ)] [mkCandidate itemA] [Entry.flat [1]] none (-1) =
      some ([scoreUpd (mkCandidate itemA) 1],
            some (scoreUpd (mkCandidate itemA) 1)) := by
    simp only [scoreLoop, toVec, cos_one_one]
    norm_num
  refine ⟨_, _, h0, ?_⟩
  exact (C3_first_argmax [(1 : ℝ)] [mkCandidate itemA] [Entry.flat [1]] _ _ h0).2.2
    0 (by simp) (by norm_num)

theorem scoreLoop_singleton (myVec : List ℝ) (c : Candidate)
    (es : List Entry) (u : List Candidate) (b : Option Candidate)
    (h : scoreLoop myVec [c] es none (-1) = some (u, b)) :
    ∃ s, u = [scoreUpd c s] ∧ (b = none ∨ b = some (scoreUpd c s)) := by
  match es with
  | [] => simp [scoreLoop] at h
  | e :: es' =>
    simp only [scoreLoop] at h
    cases hv : toVec e with
    | none => simp [hv] at h
    | some v =>
      simp only [hv] at h
      cases hc : cosineSim myVec v with
      | none => simp [hc] at h
      | some s =>
        simp only [hc] at h
        refine ⟨s, ?_⟩
        by_cases hgt : s > -1
        · rw [if_pos hgt] at h
          simp only [scoreLoop, Option.some.injEq, Prod.mk.injEq] at h
          exact ⟨h.1.symm, Or.inr h.2.symm⟩
        · rw [if_neg hgt] at h
          simp only [scoreLoop, Option.some.injEq, Prod.mk.injEq] at h
          exact ⟨h.1.symm, Or.inl h.2.symm⟩

@[simp]
theorem degrade_id (c : Candidate) : (degrade c).id = c.id := rfl

/-- C10: when the embedding response is a non-empty JSON list that is
malformed — it has fewer vectors than `1 + number of surviving
candidates` (so `embeddings[i+1]` raises IndexError), or one of the
entries the computation accesses (the first `1 + survivors`) cannot be
shaped into a vector (so `np.array` raises) — the `except` catches the
exception and `search_and_match` returns `(None, [])` — the same value
the empty-search case returns — rather than propagating an error. -/
theorem C10_malformed_embeddings (env : Env) (my_desc keyword : String)
    (it : SearchItem) (its : List SearchItem)
    (texts : List String) (c0 : Candidate) (vrest : List Candidate)
    (dlog : List CallEv) (entries : List Entry)
    (hsearch : env.searchResp = .results (it :: its))
    (henrich : enrichLoop env.detailResp (searchCandidates env.searchResp) =
      (texts, c0 :: vrest, dlog))
    (hembed : env.embedResp (my_desc :: texts) = .vectors entries)
    (hne : entries ≠ [])
    (hmal : entries.length < 1 + (c0 :: vrest).length ∨
      ∃ e ∈ entries.take (1 + (c0 :: vrest).length), toVec e = none) :
    (search_and_match env my_desc keyword).1 = (none, []) ∧
    (search_and_match { env with searchResp := .results [] }
        my_desc keyword).1 = (none, []) := by
  constructor
  · have hcand : searchCandidates env.searchResp = [mkCandidate it] := by
      rw [hsearch]
      simp [searchCandidates]
    rw [hcand] at henrich
    obtain ⟨e0, es, rfl⟩ : ∃ e0 es, entries = e0 :: es := by
      cases entries with
      | nil => exact absurd rfl hne
      | cons e0 es => exact ⟨e0, es, rfl⟩
    cases hv : toVec e0 with
    | none => simp [search_and_match, hcand, henrich, hembed, hv]
    | some myVec =>
      have hsl : scoreLoop myVec (c0 :: vrest) es none (-1) = none := by
        rcases hmal with hshort | ⟨x, hxmem, hxbad⟩
        · apply scoreLoop_short
          simp only [List.length_cons] at hshort ⊢
          omega
        · apply scoreLoop_badEntry
          refine ⟨x, ?_, hxbad⟩
          have hxmem' : x = e0 ∨ x ∈ es.take (c0 :: vrest).length := by
            simpa [Nat.one_add, List.take_succ_cons] using hxmem
          rcases hxmem' with rfl | hx
          · rw [hv] at hxbad
            simp at hxbad
          · exact hx
      simp [search_and_match, hcand, henrich, hembed, hv, hsl]
  · simp [search_and_match, searchCandidates]

/-- C10 witness: the malformed-list behavior evaluated on two concrete
runs — one whose embedding response has one vector for one surviving
candidate (two are needed, exercising the short-list disjunct), and one
of the right length whose candidate entry is a ragged nested array
(exercising the unshapeable-entry disjunct). -/
theorem C10_malformed_embeddings_w :
    (search_and_match envShort "d" "k").1 = (none, []) ∧
    (search_and_match envRagged "d" "k").1 = (none, []) :=
  ⟨(C10_malformed_embeddings envShort "d" "k" itemA [] [("T. bD").take 800]
      { mkCandidate itemA with descText := "T. bD" } []
      [CallEv.detailCall "A1"] [Entry.flat [1]]
      rfl (by simp [envShort, searchCandidates, itemA, detailOkay,
        enrichLoop, get_product_details, assembleServer, joinSpace,
        mkCandidate]) rfl (by simp) (Or.inl (by simp))).1,
   (C10_malformed_embeddings envRagged "d" "k" itemA [] [("T. bD").take 800]
      { mkCandidate itemA with descText := "T. bD" } []
      [CallEv.detailCall "A1"] [Entry.flat [1], Entry.nested [[1], [1, 2]]]
      rfl (by simp [envRagged, searchCandidates, itemA, detailOkay,
        enrichLoop, get_product_details, assembleServer, joinSpace,
        mkCandidate]) rfl (by simp)
      (Or.inr ⟨Entry.nested [[1], [1, 2]], by simp, by simp [toVec]⟩)).1⟩

/-- C9: in the server variant every result carries at most one
candidate — the raw search results are sliced to the first element —
and any non-`none` best match is exactly that single candidate, derived
from the first raw search result (same ASIN). -/
theorem C9_at_most_one_candidate (env : Env) (my_desc keyword : String) :
    (search_and_match env my_desc keyword).1.2.length ≤ 1 ∧
    ∀ c, (search_and_match env my_desc keyword).1.1 = some c →
      (search_and_match env my_desc keyword).1.2 = [c] ∧
      ∃ it its, env.searchResp = SearchResp.results (it :: its) ∧
        c.id = it.asin := by
  cases hs : env.searchResp with
  | failed =>
    have hrun : (search_and_match env my_desc keyword).1 = (none, []) := by
      simp [search_and_match, searchCandidates, hs]
    rw [hrun]
    simp
  | noKey =>
    have hrun : (search_and_match env my_desc keyword).1 = (none, []) := by
      simp [search_and_match, searchCandidates, hs]
    rw [hrun]
    simp
  | results items =>
    cases items with
    | nil =>
      have hrun : (search_and_match env my_desc keyword).1 = (none, []) := by
        simp [search_and_match, searchCandidates, hs]
      rw [hrun]
      simp
    | cons it its =>
      have hcand : searchCandidates env.searchResp = [mkCandidate it] := by
        rw [hs]
        simp [searchCandidates]
      by_cases hdt :
          get_product_details (env.detailResp (mkCandidate it).id) = ""
      · have hrun : (search_and_match env my_desc keyword).1 = (none, []) := by
          simp [search_and_match, hcand, enrichLoop, hdt]
        rw [hrun]
        simp
      · have henrich : enrichLoop env.detailResp [mkCandidate it] =
            ([(get_product_details (env.detailResp (mkCandidate it).id)).take 800],
             [{ mkCandidate it with descText :=
                 get_product_details (env.detailResp (mkCandidate it).id) }],
             [CallEv.detailCall (mkCandidate it).id]) := by
          simp [enrichLoop, hdt]
        set c0 : Candidate :=
          { mkCandidate it with descText :=
              get_product_details (env.detailResp (mkCandidate it).id) } with hc0
        have hid : c0.id = it.asin := by
          rw [hc0]
          simp [mkCandidate]
        have hdeg : ∀ r : (Option Candidate × List Candidate) × List CallEv,
            r.1 = (some (degrade c0), [degrade c0]) →
            (search_and_match env my_desc keyword).1 = r.1 →
            (search_and_match env my_desc keyword).1.2.length ≤ 1 ∧
            ∀ c, (search_and_match env my_desc keyword).1.1 = some c →
              (search_and_match env my_desc keyword).1.2 = [c] ∧
              ∃ it' its',
                (SearchResp.results (it :: its) : SearchResp) =
                  SearchResp.results (it' :: its') ∧
                c.id = it'.asin := by
          intro r hr hrun
          rw [hrun, hr]
          refine ⟨by simp, ?_⟩
          intro c hcin
          obtain rfl : degrade c0 = c := by simpa using hcin
          exact ⟨rfl, it, its, rfl, by simpa using hid⟩
        cases hemb : env.embedResp
            (my_desc ::
              [(get_product_details (env.detailResp (mkCandidate it).id)).take 800]) with
        | fail =>
          exact hdeg ((some (degrade c0), [degrade c0]), []) rfl
            (by simp [search_and_match, hcand, henrich, hemb])
        | errDict =>
          exact hdeg ((some (degrade c0), [degrade c0]), []) rfl
            (by simp [search_and_match, hcand, henrich, hemb])
        | nonList s =>
          by_cases hse : s = ""
          · subst hse
            exact hdeg ((some (degrade c0), [degrade c0]), []) rfl
              (by simp [search_and_match, hcand, henrich, hemb])
          · have hrun : (search_and_match env my_desc keyword).1 = (none, []) := by
              simp [search_and_match, hcand, henrich, hemb, hse]
            rw [hrun]
            simp
        | vectors entries =>
          cases entries with
          | nil =>
            exact hdeg ((some (degrade c0), [degrade c0]), []) rfl
              (by simp [search_and_match, hcand, henrich, hemb])
          | cons e0 es =>
            cases hv : toVec e0 with
            | none =>
              have hrun : (search_and_match env my_desc keyword).1 =
                  (none, []) := by
                simp [search_and_match, hcand, henrich, hemb, hv]
              rw [hrun]
              simp
            | some myVec =>
              cases hsl : scoreLoop myVec [c0] es none (-1) with
              | none =>
                have hrun : (search_and_match env my_desc keyword).1 =
                    (none, []) := by
                  simp [search_and_match, hcand, henrich, hemb, hv, hsl]
                rw [hrun]
                simp
              | some r =>
                have hrun : (search_and_match env my_desc keyword).1 =
                    (r.2, r.1) := by
                  simp [search_and_match, hcand, henrich, hemb, hv, hsl]
                obtain ⟨s, hu, hb⟩ :=
                  scoreLoop_singleton myVec c0 es r.1 r.2 hsl
                rw [hrun, hu]
                refine ⟨by simp, ?_⟩
                intro c hcin
                rcases hb with hb | hb
                · rw [hb] at hcin
                  simp at hcin
                · rw [hb] at hcin
                  obtain rfl : scoreUpd c0 s = c := by simpa using hcin
                  exact ⟨rfl, it, its, rfl, by simpa using hid⟩

/-- C9 witness: the at-most-one-candidate property evaluated on a
concrete fully successful run, instantiating the best-match conjunct at
the candidate it produces. -/
theorem C9_at_most_one_candidate_w :
    (search_and_match envCosPos "d" "k").1.2.length ≤ 1 ∧
    ((search_and_match envCosPos "d" "k").1.2 =
      [scoreUpd { mkCandidate itemA with descText := "T. bD" } 1] ∧
     ∃ it its, envCosPos.searchResp = SearchResp.results (it :: its) ∧
       (scoreUpd { mkCandidate itemA with descText := "T. bD" } 1).id =
         it.asin) := by
  have hbest : (search_and_match envCosPos "d" "k").1.1 =
      some (scoreUpd { mkCandidate itemA with descText := "T. bD" } 1) := by
    simp [search_and_match, envCosPos, searchCandidates, itemA, detailOkay,
      mkCandidate, enrichLoop, get_product_details, assembleServer,
      joinSpace, scoreLoop, toVec, cos_one_one,
      show ((-1 : ℝ) < 1) from by norm_num]
  exact ⟨(C9_at_most_one_candidate envCosPos "d" "k").1,
         (C9_at_most_one_candidate envCosPos "d" "k").2 _ hbest⟩

/-- C4 counterexample input: in the server variant with non-empty
bullets the long description is appended after the bullet join, so the
assembled text is not `title ++ ". " ++ join(bullets)`. -/
theorem C4_counterexample :
    assembleServer "T" ["b"] "D" = "T. bD" ∧
    assembleServer "T" ["b"] "D" ≠ "T" ++ ". " ++ joinSpace ["b"] := by
  constructor
  · rfl
  · decide

/-- C4 (amended): when bullets is non-empty the CLI variant assembles
`title ++ ". " ++ join(bullets)` while the server variant assembles
`title ++ ". " ++ join(bullets) ++ longDescription`; when bullets is
empty both variants assemble `title ++ ". " ++ longDescription`. -/
theorem C4_assemble_variants (t : String) (bs : List String) (d : String) :
    (bs ≠ [] → assembleMatcher t bs d = t ++ ". " ++ joinSpace bs ∧
               assembleServer t bs d = t ++ ". " ++ (joinSpace bs ++ d)) ∧
    (bs = [] → assembleMatcher t bs d = t ++ ". " ++ d ∧
               assembleServer t bs d = t ++ ". " ++ d) := by
  constructor
  · intro h
    constructor
    · simp [assembleMatcher, h]
    · unfold assembleServer
      rw [String.append_assoc]
  · intro h
    subst h
    constructor
    · show (t ++ ". " ++ joinSpace []) ++ d = _
      simp [joinSpace, String.append_empty]
    · show t ++ ". " ++ joinSpace [] ++ d = _
      simp [joinSpace, String.append_empty]

/-- C4 witness: the amended statement evaluated at `("T", ["b"], "D")`
for the non-empty-bullets case and at `("T", [], "D")` for the
empty-bullets case. -/
theorem C4_assemble_variants_w :
    (assembleMatcher "T" ["b"] "D" = "T" ++ ". " ++ joinSpace ["b"] ∧
     assembleServer "T" ["b"] "D" = "T" ++ ". " ++ (joinSpace ["b"] ++ "D")) ∧
    (assembleMatcher "T" [] "D" = "T" ++ ". " ++ "D" ∧
     assembleServer "T" [] "D" = "T" ++ ". " ++ "D") :=
  ⟨(C4_assemble_variants "T" ["b"] "D").1 (by decide),
   (C4_assemble_variants "T" [] "D").2 rfl⟩

/-- C5 counterexample input: on all-empty fields both assembly variants
produce `". "`, not the empty string. -/
theorem C5_counterexample :
    assembleMatcher "" [] "" = ". " ∧
    assembleServer "" [] "" = ". " ∧
    (". " : String) ≠ "" := by
  refine ⟨rfl, rfl, ?_⟩
  decide

/-- C5 (amended): the assembled text always contains the `". "`
separator after the title and is therefore never the empty string, in
either variant, whatever the source fields. -/
theorem C5_assemble_never_empty (t : String) (bs : List String)
    (d : String) :
    assembleMatcher t bs d ≠ "" ∧ assembleServer t bs d ≠ "" := by
  have key : ∀ x : String, t ++ ". " ++ x ≠ "" := by
    intro x h
    have hl := congrArg String.length h
    rw [String.length_append, String.length_append] at hl
    have h2 : (". ").length = 2 := rfl
    have h0 : ("" : String).length = 0 := rfl
    omega
  constructor
  · unfold assembleMatcher
    split
    · intro h
      rw [String.append_assoc] at h
      exact key _ h
    · exact key _
  · intro h
    unfold assembleServer at h
    rw [String.append_assoc] at h
    exact key _ h

/-- C8 counterexample input: with the neural model loaded but an empty
text, `get_embedding` returns the fresh random draw, so two runs of the
same strategy on the same input disagree. -/
theorem C8_counterexample :
    get_embedding (some fun _ => [(1 : ℝ)]) [0] "" ≠
    get_embedding (some fun _ => [(1 : ℝ)]) [1] "" := by
  simp only [get_embedding, if_pos rfl]
  intro h
  have := List.head_eq_of_cons_eq h
  norm_num at this

/-- C8 (amended): when the model is loaded and the text is non-empty,
`get_embedding` is a pure function of the text — it does not depend on
the random draw — so two runs produce identical vectors and every
downstream cosine similarity agrees exactly. -/
theorem C8_model_deterministic (m : String → List ℝ) (r1 r2 : List ℝ)
    (t : String) (h : t ≠ "") :
    get_embedding (some m) r1 t = get_embedding (some m) r2 t ∧
    ∀ v, cosineSim (get_embedding (some m) r1 t) v =
         cosineSim (get_embedding (some m) r2 t) v := by
  simp [get_embedding, h]

/-- C8 witness: the amended statement evaluated at a concrete model,
two distinct random draws, and the non-empty text `"x"`. -/
theorem C8_model_deterministic_w :
    get_embedding (some fun _ => [(1 : ℝ)]) [0] "x" =
      get_embedding (some fun _ => [(1 : ℝ)]) [1] "x" ∧
    ∀ v, cosineSim (get_embedding (some fun _ => [(1 : ℝ)]) [0] "x") v =
         cosineSim (get_embedding (some fun _ => [(1 : ℝ)]) [1] "x") v :=
  C8_model_deterministic (fun _ => [(1 : ℝ)]) [0] [1] "x" (by decide)

theorem trace_shape (env : Env) (my_desc keyword : String) :
    (search_and_match env my_desc keyword).2 = [CallEv.searchCall keyword] ∨
    (search_and_match env my_desc keyword).2 =
      CallEv.searchCall keyword ::
        (enrichLoop env.detailResp (searchCandidates env.searchResp)).2.2 ∨
    (search_and_match env my_desc keyword).2 =
      (CallEv.searchCall keyword ::
        (enrichLoop env.detailResp (searchCandidates env.searchResp)).2.2) ++
        [CallEv.embedCall (my_desc ::
          (enrichLoop env.detailResp (searchCandidates env.searchResp)).1)] := by
  unfold search_and_match
  dsimp only
  split
  · exact Or.inl rfl
  · rename_i c cs hsc
    rw [hsc]
    split
    · exact Or.inr (Or.inl rfl)
    · split
      · exact Or.inr (Or.inr rfl)
      · exact Or.inr (Or.inr rfl)
      · split
        · exact Or.inr (Or.inr rfl)
        · exact Or.inr (Or.inr rfl)
      · exact Or.inr (Or.inr rfl)
      · split
        · exact Or.inr (Or.inr rfl)
        · split
          · exact Or.inr (Or.inr rfl)
          · exact Or.inr (Or.inr rfl)

theorem fbcLoop_embed_count (env : MatcherEnv) (myVec : List ℝ) :
    ∀ (items : List MCand) (n : ℕ) (best : Option MCand) (high : ℝ)
      (r : List MCand × Option MCand × ℕ × List CallEv),
      fbcLoop env myVec items n best high = some r →
      r.2.2.2.countP isEmbed = items.length := by
  intro items
  induction items with
  | nil =>
    intro n best high r h
    simp only [fbcLoop, Option.some.injEq] at h
    subst h
    simp
  | cons item rest ih =>
    intro n best high r h
    simp only [fbcLoop] at h
    split at h
    · cases h
    · rename_i score hcs
      split at h
      · cases h
      · rename_i r2 hnext
        have hcount : r2.2.2.2.countP isEmbed = rest.length := by
          by_cases hgt : score > high
          · rw [if_pos hgt] at hnext
            exact ih _ _ _ _ hnext
          · rw [if_neg hgt] at hnext
            exact ih _ _ _ _ hnext
        injection h with h'
        subst h'
        simp [List.countP_cons, isEmbed, hcount]

theorem cliRunEval :
    find_best_competitor cliEnv "x" "kw" = some cliRunResult := by
  simp [find_best_competitor, cliRunResult, cliEnv, search_amazon_real,
    itemA, mkMCand, fbcLoop, get_product_details_from_api, detailOkay,
    assembleMatcher, joinSpace, get_embedding, cos_one_one, fbcUpd,
    show ((-1 : ℝ) < 1) from by norm_num]

/-- C6 counterexample input: in the CLI variant the embedding function
is invoked once per text, never on a batch — a run with one surviving
candidate performs two embedding-provider invocations (the reference
text and the candidate text), not one. -/
theorem C6_counterexample :
    find_best_competitor cliEnv "x" "kw" = some cliRunResult ∧
    cliRunResult.2.countP isEmbed = 2 := by
  refine ⟨cliRunEval, ?_⟩
  simp [cliRunResult, List.countP_cons, isEmbed]

/-- C6 (amended): in the server variant at most one embedding call is
made per request, and any embedding call carries exactly the single
batch `[myDescription] ++ surviving candidates' truncated texts`; in the
CLI variant the embedding provider is invoked once for the reference
text plus once per candidate (`1 + number of candidates` calls when any
candidate is found, zero when none is). -/
theorem C6_embedding_call_counts :
    (∀ (env : Env) (my_desc keyword : String),
      (search_and_match env my_desc keyword).2.countP isEmbed ≤ 1 ∧
      ∀ ts, CallEv.embedCall ts ∈ (search_and_match env my_desc keyword).2 →
        ts = my_desc ::
          (enrichLoop env.detailResp (searchCandidates env.searchResp)).1) ∧
    (∀ (env : MatcherEnv) (my_desc keyword : String)
      (r : (Option MCand × List MCand) × List CallEv),
      find_best_competitor env my_desc keyword = some r →
      r.2.countP isEmbed =
        if (search_amazon_real env.searchResp 1).isEmpty then 0
        else 1 + (search_amazon_real env.searchResp 1).length) := by
  constructor
  · intro env my_desc keyword
    have hdz : ((enrichLoop env.detailResp
        (searchCandidates env.searchResp)).2.2).countP isEmbed = 0 := by
      rw [List.countP_eq_zero]
      intro a ha
      obtain ⟨x, rfl⟩ := enrichLoop_log_detail env.detailResp _ a ha
      simp [isEmbed]
    have hdm : ∀ ts, CallEv.embedCall ts ∉
        (enrichLoop env.detailResp (searchCandidates env.searchResp)).2.2 := by
      intro ts hmem
      obtain ⟨x, hx⟩ := enrichLoop_log_detail env.detailResp _ _ hmem
      exact absurd hx (by simp)
    rcases trace_shape env my_desc keyword with h | h | h
    · rw [h]
      constructor
      · simp [List.countP_cons, isEmbed]
      · intro ts hts
        simp at hts
    · rw [h]
      constructor
      · simp [List.countP_cons, isEmbed, hdz]
      · intro ts hts
        simp at hts
        exact absurd hts (hdm ts)
    · rw [h]
      constructor
      · simp [List.countP_append, List.countP_cons, isEmbed, hdz]
      · intro ts hts
        simp at hts
        rcases hts with hts | hts
        · exact absurd hts (hdm ts)
        · exact hts
  · intro env my_desc keyword r h
    unfold find_best_competitor at h
    cases hsr : search_amazon_real env.searchResp 1 with
    | nil =>
      rw [hsr] at h
      injection h with h'
      subst h'
      simp [hsr, isEmbed]
    | cons c cs =>
      rw [hsr] at h
      dsimp only at h
      split at h
      · cases h
      · rename_i r0 hloop
        injection h with h'
        subst h'
        have hcount := fbcLoop_embed_count env _ (c :: cs) 1 none (-1) r0 hloop
        simp [hsr, List.countP_cons, isEmbed, hcount]
        omega

/-- C6 witness: both conjuncts of the amended statement evaluated on
concrete runs — a server run that reaches the (single, batched)
embedding call and the concrete CLI run with one candidate. -/
theorem C6_embedding_call_counts_w :
    ((search_and_match envEmbedFail "d" "k").2.countP isEmbed ≤ 1 ∧
     ∀ ts, CallEv.embedCall ts ∈ (search_and_match envEmbedFail "d" "k").2 →
       ts = "d" :: (enrichLoop envEmbedFail.detailResp
         (searchCandidates envEmbedFail.searchResp)).1) ∧
    cliRunResult.2.countP isEmbed =
      (if (search_amazon_real cliEnv.searchResp 1).isEmpty then 0
       else 1 + (search_amazon_real cliEnv.searchResp 1).length) :=
  ⟨C6_embedding_call_counts.1 envEmbedFail "d" "k",
   C6_embedding_call_counts.2 cliEnv "x" "kw" cliRunResult cliRunEval⟩

end PriceOpt
